import Mathlib

/-!
Shallow embedding of `src/app.py` (artypacks-converter-backend) and proofs
about its conversion pipeline and HTTP routes.

Modelling conventions:
- Encoded image bytes are `List Nat`.
- PIL's `Image.open` is an abstract `Decoder : Bytes → Option ImageInfo`
  parameter: `none` models a decode failure (the `except` branch).
- The zip container handed to `process_brushset` is `Option Archive`:
  `none` models a byte stream on which `zipfile.ZipFile` raises
  `BadZipFile`; `some ar` gives the entry listing in `namelist()` order.
- External side effects of the `/convert` route (credit commit, storage
  upload, provenance insert) are recorded in an `Effect` trace in the
  order the code performs them.
-/

namespace ArtyPacks

abbrev Bytes := List Nat

/-- Pixel dimensions reported by decoding an image (`PIL.Image.open`). -/
structure ImageInfo where
  width : Nat
  height : Nat
deriving DecidableEq

/-- One entry of the uploaded zip: its path inside the archive and its raw
encoded bytes (`brushset_zip.open(name).read()`). -/
structure Entry where
  name : String
  data : Bytes
deriving DecidableEq

/-- The uploaded `.brushset` container, entries in `namelist()` order. -/
structure Archive where
  entries : List Entry
deriving DecidableEq

/-- One entry of the produced output zip (`zf.writestr(path, bytes)`). -/
structure OutEntry where
  name : String
  data : Bytes
deriving DecidableEq

/-- Abstract image decoder standing for `PIL.Image.open` on encoded bytes;
`none` models a decode failure. -/
abbrev Decoder := Bytes → Option ImageInfo

/-! String helpers, written structurally over `List Char` so that every
definition reduces in the kernel. They model the Python string operations
used by `app.py` (ASCII-faithful, which covers the constants the code
compares against). -/

/-- Python `str.lower`, modelled on the ASCII range via `Char.toLower`. -/
def strToLower (s : String) : String := String.mk (s.data.map Char.toLower)

/-- Python `s.endswith(suf)`. -/
def strEndsWith (s suf : String) : Bool := suf.data.isSuffixOf s.data

/-- Python `s.startswith(pre)`. -/
def strStartsWith (s pre : String) : Bool := pre.data.isPrefixOf s.data

/-- Auxiliary substring scan: does `pat` occur as a contiguous sublist? -/
def strContainsAux (pat : List Char) : List Char → Bool
  | [] => pat.isEmpty
  | c :: rest => pat.isPrefixOf (c :: rest) || strContainsAux pat rest

/-- Python `pat in s` on strings (substring containment). -/
def strContains (s pat : String) : Bool := strContainsAux pat.data s.data

/-- Split a character list on a separator character (backing for the
`os.path` helpers; result is nonempty like Python `str.split`). -/
def splitOnChar (sep : Char) : List Char → List (List Char)
  | [] => [[]]
  | x :: xs =>
    let r := splitOnChar sep xs
    if x = sep then [] :: r
    else
      match r with
      | [] => [[x]]
      | h :: t => (x :: h) :: t

/-- Rejoin dot-separated components (backing for `os.path.splitext`). -/
def joinDots : List (List Char) → List Char
  | [] => []
  | [x] => x
  | x :: xs => x ++ '.' :: joinDots xs

/-- `os.path.basename` on a POSIX path. -/
def basename (p : String) : String :=
  String.mk ((splitOnChar '/' p.data).getLastD [])

/-- The root part of `os.path.splitext` applied to a bare file name:
split at the last dot unless every character before it is a dot
(CPython `genericpath._splitext`). -/
def splitextStem (b : String) : String :=
  let parts := splitOnChar '.' b.data
  if parts.length ≤ 1 then b
  else if parts.dropLast.all (fun s => s.isEmpty) then b
  else String.mk (joinDots parts.dropLast)

/-! The conversion pipeline: `process_brushset` (src/app.py lines 235-288). -/

/-- Does a lowercased entry path end in one of the image extensions?
(`name.lower().endswith(('.png', '.jpg', '.jpeg'))`, line 243). -/
def lowerEndsWithImageExt (name : String) : Bool :=
  strEndsWith (strToLower name) ".png" || strEndsWith (strToLower name) ".jpg"
    || strEndsWith (strToLower name) ".jpeg"

/-- The candidate filter of lines 241-246: image extension, not the
`artwork.png` cover thumbnail, not a `__MACOSX` resource-fork entry. -/
def isCandidate (name : String) : Bool :=
  lowerEndsWithImageExt name
    && !(strContains (strToLower name) "artwork.png")
    && !(strStartsWith name "__MACOSX")

/-- `image_files` list comprehension (lines 241-246). -/
def imageFiles (ar : Archive) : List Entry :=
  ar.entries.filter (fun e => isCandidate e.name)

/-- `original_brushset_name = os.path.splitext(os.path.basename(filepath))[0]`
(line 248). -/
def baseOf (filepath : String) : String := splitextStem (basename filepath)

/-- `root_folder_name = f"ArtyPacks.app_{original_brushset_name}"` (line 249). -/
def rootFolderName (filepath : String) : String :=
  "ArtyPacks.app_" ++ baseOf filepath

/-- `image_filename_in_zip = f"{name}_{count}.png"` (line 269). -/
def imageFilenameInZip (base : String) (k : Nat) : String :=
  base ++ "_" ++ toString k ++ ".png"

/-- `os.path.join(root_folder_name, image_filename_in_zip)` (line 270);
the joined name is never absolute, so `join` is plain concatenation. -/
def mkEntryName (root base : String) (k : Nat) : String :=
  root ++ "/" ++ imageFilenameInZip base k

/-- The size/validity gate of lines 257-263 applied to one entry's bytes:
kept iff it decodes and neither dimension is below 1024. -/
def qualifies (decode : Decoder) (data : Bytes) : Bool :=
  match decode data with
  | none => false
  | some img => if img.width < 1024 ∨ img.height < 1024 then false else true

/-- The writing loop of lines 253-272: walk the candidates in listing
order, skip undecodable or undersized entries, and write each survivor as
`<base>_<count>.png` (`count` = `valid_images_found` after increment) with
its source bytes unchanged. -/
def packLoop (decode : Decoder) (root base : String) :
    List Entry → Nat → List OutEntry
  | [], _ => []
  | e :: rest, count =>
    match decode e.data with
    | none => packLoop decode root base rest count
    | some img =>
      if img.width < 1024 ∨ img.height < 1024 then
        packLoop decode root base rest count
      else
        ⟨mkEntryName root base (count + 1), e.data⟩ ::
          packLoop decode root base rest (count + 1)

/-- Error message of line 282 (`zipfile.BadZipFile` handler). -/
def corruptMsg : String :=
  "A provided file seems to be corrupted or isn't a valid .brushset."

/-- Error message of line 276 (`valid_images_found == 0`). -/
def emptyMsg : String :=
  "No valid stamp images (>=1024px) were found in the brushset."

/-- `process_brushset` (lines 235-288), returning the Python pair
`(zip_buffer, error)`. The output zip is its entry list. -/
def process_brushset (decode : Decoder) (filepath : String)
    (zipOpen : Option Archive) : Option (List OutEntry) × Option String :=
  match zipOpen with
  | none => (none, some corruptMsg)
  | some ar =>
    let out := packLoop decode (rootFolderName filepath) (baseOf filepath)
      (imageFiles ar) 0
    if out.length = 0 then (none, some emptyMsg)
    else (some out, none)

/-- The source entries that pass both the candidate filter and the size
gate, in archive listing order (derived notion used by the theorems). -/
def qualifyingEntries (decode : Decoder) (ar : Archive) : List Entry :=
  (imageFiles ar).filter (fun e => qualifies decode e.data)

/-! The `/convert` route: `convert_files` (src/app.py lines 42-113). -/

/-- Outcome of the `use_one_credit` stored-procedure call (lines 48-63):
`granted` commits the decrement, `denied` rolls back (403), `dbError`
models a database exception (500). -/
inductive GateResult
  | granted
  | denied (msg : String)
  | dbError
deriving DecidableEq

/-- The uploaded multipart `file` part: its client-supplied filename and
the result of opening its saved bytes as a zip (`none` = not a valid zip). -/
structure UploadedFile where
  filename : String
  zipOpen : Option Archive
deriving DecidableEq

/-- The `/convert` request: `licenseKey` form field (`none` also covers the
falsy empty string, line 44-46) and the optional `file` part. -/
structure ConvertRequest where
  licenseKey : Option String
  file : Option UploadedFile
deriving DecidableEq

/-- External side effects of the `/convert` route, in program order:
the committed credit decrement (line 57), the storage upload attempt
(lines 88-92), the provenance-row insert attempt (lines 96-100). -/
inductive Effect
  | creditConsumed
  | storageUpload
  | logInsert
deriving DecidableEq

/-- An HTTP response of `/convert` paired with the external side effects
performed while producing it. -/
structure HttpResponse where
  status : Nat
  effects : List Effect
deriving DecidableEq

/-- `convert_files` (lines 42-113). `secure` stands for werkzeug's
`secure_filename`; `uploadOk` / `logOk` say whether the storage upload and
the provenance insert succeed (an exception in either is caught at line
108 and answered with 500). The upload/insert only run when
`process_brushset` reported no error. -/
def convert_files (decode : Decoder) (secure : String → String)
    (gate : GateResult) (uploadOk logOk : Bool) (req : ConvertRequest) :
    HttpResponse :=
  match req.licenseKey with
  | none => ⟨401, []⟩
  | some _ =>
    match gate with
    | GateResult.denied _ => ⟨403, []⟩
    | GateResult.dbError => ⟨500, []⟩
    | GateResult.granted =>
      match req.file with
      | none => ⟨400, [Effect.creditConsumed]⟩
      | some f =>
        if f.filename = "" then ⟨400, [Effect.creditConsumed]⟩
        else if strEndsWith f.filename ".brushset" then
          match (process_brushset decode (secure f.filename) f.zipOpen).2 with
          | some _ => ⟨400, [Effect.creditConsumed]⟩
          | none =>
            match uploadOk with
            | false => ⟨500, [Effect.creditConsumed, Effect.storageUpload]⟩
            | true =>
              match logOk with
              | false =>
                ⟨500, [Effect.creditConsumed, Effect.storageUpload,
                  Effect.logInsert]⟩
              | true =>
                ⟨200, [Effect.creditConsumed, Effect.storageUpload,
                  Effect.logInsert]⟩
        else ⟨400, [Effect.creditConsumed]⟩

/-! The `/download-all` route: `download_all` (src/app.py lines 116-176). -/

/-- Per-URL outcome inside the loop of lines 141-160: the HTTP fetch
raises (`requests.exceptions.RequestException`), the fetched bytes are not
a zip (`zipfile.BadZipFile`), or an inner zip with its entry listing. -/
inductive FetchResult
  | requestError
  | badZip
  | ok (entries : List OutEntry)
deriving DecidableEq

/-- The master-zip loop of lines 141-160: failed URLs are skipped
(`continue`), successful inner zips have all their entries copied in. -/
def buildMaster : List FetchResult → List OutEntry
  | [] => []
  | FetchResult.requestError :: rest => buildMaster rest
  | FetchResult.badZip :: rest => buildMaster rest
  | FetchResult.ok es :: rest => es ++ buildMaster rest

/-- The entries one URL contributes to the batch (empty on any failure). -/
def okEntries : FetchResult → List OutEntry
  | FetchResult.ok es => es
  | FetchResult.requestError => []
  | FetchResult.badZip => []

/-- A `/download-all` response: status plus the entry list of the batch
zip sent back (present exactly on the 200 `send_file` path). -/
structure DownloadAllResponse where
  status : Nat
  archive : Option (List OutEntry)
deriving DecidableEq

/-- `download_all` (lines 116-176). `licenseCheck` is the
`get_license_status` scalar: `none` models a database exception (500),
`some false` an invalid license (403). A missing key, a missing/empty URL
list (both falsy in Python, line 125) give 400. -/
def download_all (licenseCheck : Option Bool) (licenseKey : Option String)
    (urls : Option (List FetchResult)) : DownloadAllResponse :=
  match licenseKey, urls with
  | none, _ => ⟨400, none⟩
  | some _, none => ⟨400, none⟩
  | some k, some us =>
    if k = "" ∨ us.isEmpty then ⟨400, none⟩
    else
      match licenseCheck with
      | none => ⟨500, none⟩
      | some false => ⟨403, none⟩
      | some true => ⟨200, some (buildMaster us)⟩

/-! Concrete fixtures used by the witnesses and counterexamples. -/

/-- Decoder fixture for the concrete inputs: a two-element byte stream
`[w, h]` decodes to a `w`-by-`h` image, anything else fails to decode. -/
def testDecode : Decoder := fun b =>
  match b with
  | [w, h] => some ⟨w, h⟩
  | _ => none

/-- Spec scenario A archive: `a.png` 2000x2000, `cover/artwork.png`
3000x3000, `z.jpg` 1024x1024. -/
def scenarioA : Archive :=
  ⟨[⟨"a.png", [2000, 2000]⟩, ⟨"cover/artwork.png", [3000, 3000]⟩,
    ⟨"z.jpg", [1024, 1024]⟩]⟩

/-- Spec scenario B archive: a single undersized `small.png` 500x500. -/
def scenarioB : Archive := ⟨[⟨"small.png", [500, 500]⟩]⟩

/-- Scenario-B `/convert` request: valid key, well-named upload whose only
entry is undersized. -/
def reqB : ConvertRequest := ⟨some "KEY", some ⟨"pack.brushset", some scenarioB⟩⟩

/-- An archive whose listing order (`b.png` before `a.png`) disagrees with
the lexical order of its entry paths; both images qualify. -/
def unsortedArchive : Archive :=
  ⟨[⟨"b.png", [2000, 2000]⟩, ⟨"a.png", [2000, 2001]⟩]⟩

/-! Lexical sorting of entries by path, written from the spec's words
("sorted by a stable key (source path lexical order)") to compare against
what the code actually does. -/

/-- Lexicographic strict order on character lists by code point. -/
def charListLt : List Char → List Char → Bool
  | [], [] => false
  | [], _ :: _ => true
  | _ :: _, [] => false
  | a :: as, b :: bs =>
    if a.val.toNat < b.val.toNat then true
    else if b.val.toNat < a.val.toNat then false
    else charListLt as bs

/-- Lexical `≤` on entry names. -/
def nameLe (a b : String) : Bool := charListLt a.data b.data || a = b

/-- Insertion step of the lexical sort. -/
def insertByName (e : Entry) : List Entry → List Entry
  | [] => [e]
  | x :: xs =>
    if nameLe e.name x.name then e :: x :: xs else x :: insertByName e xs

/-- Modelled from the spec: insertion sort of entries in "source path
lexical order", the ordering the spec says precedes ordinal assignment. -/
def sortByName : List Entry → List Entry
  | [] => []
  | e :: xs => insertByName e (sortByName xs)

/-- Output the pipeline produces for scenario A under `testDecode`. -/
def outA : List OutEntry :=
  [⟨"ArtyPacks.app_base/base_1.png", [2000, 2000]⟩,
   ⟨"ArtyPacks.app_base/base_2.png", [1024, 1024]⟩]

/-- Output the pipeline produces for `unsortedArchive` under `testDecode`. -/
def outU : List OutEntry :=
  [⟨"ArtyPacks.app_p/p_1.png", [2000, 2000]⟩,
   ⟨"ArtyPacks.app_p/p_2.png", [2000, 2001]⟩]

/-- A `/convert` request whose upload is named like a brushset but whose
bytes are not a valid zip container. -/
def reqCorrupt : ConvertRequest := ⟨some "KEY", some ⟨"bad.brushset", none⟩⟩

/-- A `/download-all` URL batch: two good inner zips around one failed
fetch and one corrupt download. -/
def urlsW : List FetchResult :=
  [FetchResult.ok [⟨"f/a.png", [1]⟩], FetchResult.requestError,
   FetchResult.badZip, FetchResult.ok [⟨"g/b.png", [2]⟩]]

/-! Helper lemmas characterising the writing loop and the pipeline. -/

/-- The bytes written by the loop are exactly the bytes of the entries
that pass the size gate, in listing order. -/
theorem packLoop_map_data (decode : Decoder) (root base : String) :
    ∀ (l : List Entry) (c : Nat),
      (packLoop decode root base l c).map (fun e => e.data)
        = (l.filter (fun e => qualifies decode e.data)).map (fun e => e.data) := by
  intro l
  induction l with
  | nil => intro c; rfl
  | cons e rest ih =>
    intro c
    cases hd : decode e.data with
    | none =>
      have hq : qualifies decode e.data = false := by simp [qualifies, hd]
      simp [packLoop, hd, hq, ih c]
    | some img =>
      by_cases hs : img.width < 1024 ∨ img.height < 1024
      · have hq : qualifies decode e.data = false := by simp [qualifies, hd, hs]
        simp [packLoop, hd, hs, hq, ih c]
      · have hq : qualifies decode e.data = true := by simp [qualifies, hd, hs]
        simp [packLoop, hd, hs, hq, ih (c + 1)]

/-- The loop writes one output entry per gate-passing input entry. -/
theorem packLoop_length (decode : Decoder) (root base : String)
    (l : List Entry) (c : Nat) :
    (packLoop decode root base l c).length
      = (l.filter (fun e => qualifies decode e.data)).length := by
  have h := congrArg List.length (packLoop_map_data decode root base l c)
  simpa using h

/-- The names written by the loop started at counter `c` are exactly
`mkEntryName root base (c + i + 1)` for `i = 0, 1, ...`: ordinals are
contiguous with no gaps. -/
theorem packLoop_names (decode : Decoder) (root base : String) :
    ∀ (l : List Entry) (c : Nat),
      (packLoop decode root base l c).map (fun e => e.name)
        = (List.range (packLoop decode root base l c).length).map
            (fun i => mkEntryName root base (c + i + 1)) := by
  intro l
  induction l with
  | nil => intro c; rfl
  | cons e rest ih =>
    intro c
    cases hd : decode e.data with
    | none => simp only [packLoop, hd]; exact ih c
    | some img =>
      by_cases hs : img.width < 1024 ∨ img.height < 1024
      · simp only [packLoop, hd, if_pos hs]
        exact ih c
      · simp only [packLoop, hd, if_neg hs, List.map_cons, List.length_cons,
          List.range_succ_eq_map, List.map_map]
        rw [ih (c + 1)]
        have hfun : ((fun i => mkEntryName root base (c + i + 1)) ∘ Nat.succ)
            = fun i => mkEntryName root base (c + 1 + i + 1) := by
          funext i
          show mkEntryName root base (c + (i + 1) + 1)
            = mkEntryName root base (c + 1 + i + 1)
          congr 1
          omega
        rw [hfun]

/-- When `process_brushset` succeeds on an archive, its output is exactly
what the writing loop produces from the filtered candidates. -/
theorem process_brushset_some (decode : Decoder) (fp : String) (ar : Archive)
    (out : List OutEntry)
    (h : (process_brushset decode fp (some ar)).1 = some out) :
    out = packLoop decode (rootFolderName fp) (baseOf fp) (imageFiles ar) 0 := by
  by_cases h0 : (packLoop decode (rootFolderName fp) (baseOf fp)
      (imageFiles ar) 0).length = 0
  · simp [process_brushset, h0] at h
  · simp [process_brushset, h0] at h
    exact h.symm

/-- When no entry passes both filters, `process_brushset` returns the
empty-result error pair. -/
theorem process_brushset_empty (decode : Decoder) (fp : String) (ar : Archive)
    (hq : qualifyingEntries decode ar = []) :
    process_brushset decode fp (some ar) = (none, some emptyMsg) := by
  have h0 : (packLoop decode (rootFolderName fp) (baseOf fp)
      (imageFiles ar) 0).length = 0 := by
    rw [packLoop_length]
    have : (imageFiles ar).filter (fun e => qualifies decode e.data) = [] := hq
    rw [this]
    rfl
  simp [process_brushset, h0]

/-- String append is associative (proved via the underlying lists). -/
theorem strAppend_assoc (a b c : String) : a ++ b ++ c = a ++ (b ++ c) := by
  cases a with
  | mk da =>
    cases b with
    | mk db =>
      cases c with
      | mk dc =>
        show String.mk ((da ++ db) ++ dc) = String.mk (da ++ (db ++ dc))
        rw [List.append_assoc]

/-- The character data of an appended string. -/
theorem strData_append (a b : String) : (a ++ b).data = a.data ++ b.data := by
  cases a; cases b; rfl

/-! Claim theorems. -/

/-- C5: the minimum-dimension policy is an inclusive 1024-pixel floor. For
a single-candidate archive whose entry decodes to a `w`-by-`h` image, the
pipeline produces an output pack iff both dimensions are at least 1024:
1024x1024 is accepted, while 1023x1024 and 1024x1023 are rejected. -/
theorem C5_inclusive_floor (decode : Decoder) (fp name : String) (data : Bytes)
    (w h : Nat) (hc : isCandidate name = true)
    (hd : decode data = some ⟨w, h⟩) :
    ((process_brushset decode fp (some ⟨[⟨name, data⟩]⟩)).1.isSome = true)
      ↔ (1024 ≤ w ∧ 1024 ≤ h) := by
  have hif : imageFiles ⟨[⟨name, data⟩]⟩ = [⟨name, data⟩] := by
    simp [imageFiles, hc]
  by_cases hs : w < 1024 ∨ h < 1024
  · have hloop : packLoop decode (rootFolderName fp) (baseOf fp)
        [⟨name, data⟩] 0 = [] := by
      simp [packLoop, hd, hs]
    simp [process_brushset, hif, hloop]
    omega
  · have hloop : packLoop decode (rootFolderName fp) (baseOf fp)
        [⟨name, data⟩] 0
        = [⟨mkEntryName (rootFolderName fp) (baseOf fp) 1, data⟩] := by
      simp [packLoop, hd, hs]
    simp [process_brushset, hif, hloop]
    omega

/-- Witness for C5: an exactly 1024x1024 image is accepted into the pack. -/
theorem C5_inclusive_floor_witness :
    ((process_brushset testDecode "p.brushset"
      (some ⟨[⟨"exact.png", [1024, 1024]⟩]⟩)).1.isSome = true) :=
  (C5_inclusive_floor testDecode "p.brushset" "exact.png" [1024, 1024]
    1024 1024 (by decide) (by decide)).mpr ⟨by decide, by decide⟩

/-- C6: an archive entry is a candidate iff its lowercased path ends in
`.png`, `.jpg` or `.jpeg`, its lowercased path does not contain the
substring `artwork.png`, and its path does not start with `__MACOSX`. -/
theorem C6_candidate_filter (ar : Archive) (e : Entry) (he : e ∈ ar.entries) :
    e ∈ imageFiles ar
      ↔ ((strEndsWith (strToLower e.name) ".png" = true
            ∨ strEndsWith (strToLower e.name) ".jpg" = true
            ∨ strEndsWith (strToLower e.name) ".jpeg" = true)
          ∧ strContains (strToLower e.name) "artwork.png" = false
          ∧ strStartsWith e.name "__MACOSX" = false) := by
  simp only [imageFiles, List.mem_filter, he, true_and, isCandidate,
    lowerEndsWithImageExt, Bool.and_eq_true, Bool.or_eq_true,
    Bool.not_eq_true']
  tauto

/-- Witness for C6: the cover thumbnail `cover/artwork.png` of scenario A
is excluded from the candidates exactly by the `artwork.png` rule. -/
theorem C6_candidate_filter_witness :
    ((⟨"cover/artwork.png", [3000, 3000]⟩ : Entry) ∈ imageFiles scenarioA)
      ↔ ((strEndsWith (strToLower "cover/artwork.png") ".png" = true
            ∨ strEndsWith (strToLower "cover/artwork.png") ".jpg" = true
            ∨ strEndsWith (strToLower "cover/artwork.png") ".jpeg" = true)
          ∧ strContains (strToLower "cover/artwork.png") "artwork.png" = false
          ∧ strStartsWith "cover/artwork.png" "__MACOSX" = false) :=
  C6_candidate_filter scenarioA ⟨"cover/artwork.png", [3000, 3000]⟩ (by decide)

/-- C7: a byte stream that is not a valid zip makes `process_brushset`
return the corrupt-archive error pair (the `BadZipFile` handler), and the
`/convert` route surfaces it as HTTP 400. -/
theorem C7_corrupt_archive (decode : Decoder) (fp : String)
    (secure : String → String) (gate : GateResult) (uploadOk logOk : Bool)
    (req : ConvertRequest) (f : UploadedFile) (key : String)
    (hkey : req.licenseKey = some key) (hg : gate = GateResult.granted)
    (hf : req.file = some f) (hz : f.zipOpen = none)
    (hne : ¬ f.filename = "")
    (hbs : strEndsWith f.filename ".brushset" = true) :
    process_brushset decode fp none = (none, some corruptMsg)
    ∧ (convert_files decode secure gate uploadOk logOk req).status = 400 := by
  refine ⟨rfl, ?_⟩
  simp [convert_files, hkey, hg, hf, hne, hbs, hz, process_brushset]

/-- Witness for C7: a corrupt `.brushset` upload is answered with 400. -/
theorem C7_corrupt_archive_witness :
    process_brushset testDecode "bad.brushset" none = (none, some corruptMsg)
    ∧ (convert_files testDecode (fun s => s) GateResult.granted true true
        reqCorrupt).status = 400 :=
  C7_corrupt_archive testDecode "bad.brushset" (fun s => s) GateResult.granted
    true true reqCorrupt ⟨"bad.brushset", none⟩ "KEY" rfl rfl rfl rfl
    (by decide) (by decide)

/-- C1 counterexample: on an archive whose listing order (`b.png` before
`a.png`) disagrees with the lexical order of its paths, the output pack
keeps the listing order, not the lexically sorted order the claim states:
the produced byte sequence differs from the one lexical sorting gives. -/
theorem C1_counterexample :
    ((process_brushset testDecode "p.brushset" (some unsortedArchive)).1.getD
        []).map (fun e => e.data) = [[2000, 2000], [2000, 2001]]
    ∧ (sortByName (qualifyingEntries testDecode unsortedArchive)).map
        (fun e => e.data) = [[2000, 2001], [2000, 2000]]
    ∧ ((process_brushset testDecode "p.brushset" (some unsortedArchive)).1.getD
        []).map (fun e => e.data)
      ≠ (sortByName (qualifyingEntries testDecode unsortedArchive)).map
          (fun e => e.data) := by
  decide

/-- C1 (amended): a successful output pack has exactly one entry per
qualifying image, the entry bytes are the qualifying entries' bytes in the
source archive's listing (namelist) order — not lexically sorted order —
and the entry names carry contiguous 1-based ordinals with no gaps. -/
theorem C1_pack_contents (decode : Decoder) (fp : String) (ar : Archive)
    (out : List OutEntry)
    (h : (process_brushset decode fp (some ar)).1 = some out) :
    out.length = (qualifyingEntries decode ar).length
    ∧ out.map (fun e => e.data)
        = (qualifyingEntries decode ar).map (fun e => e.data)
    ∧ out.map (fun e => e.name)
        = (List.range out.length).map
            (fun i => mkEntryName (rootFolderName fp) (baseOf fp) (i + 1)) := by
  have hchar := process_brushset_some decode fp ar out h
  subst hchar
  refine ⟨packLoop_length _ _ _ _ _, packLoop_map_data _ _ _ _ _, ?_⟩
  rw [packLoop_names]
  have hfun : (fun i => mkEntryName (rootFolderName fp) (baseOf fp) (0 + i + 1))
      = fun i => mkEntryName (rootFolderName fp) (baseOf fp) (i + 1) := by
    funext i
    congr 1
    omega
  rw [hfun]

/-- Witness for C1 (amended): the characterization evaluated on the
two-image archive in non-lexical listing order. -/
theorem C1_pack_contents_witness :
    outU.length = (qualifyingEntries testDecode unsortedArchive).length
    ∧ outU.map (fun e => e.data)
        = (qualifyingEntries testDecode unsortedArchive).map (fun e => e.data)
    ∧ outU.map (fun e => e.name)
        = (List.range outU.length).map
            (fun i => mkEntryName (rootFolderName "p.brushset")
              (baseOf "p.brushset") (i + 1)) :=
  C1_pack_contents testDecode "p.brushset" unsortedArchive outU (by decide)

/-- C4 counterexample: on the scenario-A archive the output pack has two
entries and none of them is named with a `.jpg` extension, so the claimed
entry `base_2.jpg` (matching the source encoding of `z.jpg`) does not
exist. -/
theorem C4_counterexample :
    (((process_brushset testDecode "base.brushset" (some scenarioA)).1.getD
        []).all (fun e => !(strEndsWith e.name ".jpg"))) = true
    ∧ ((process_brushset testDecode "base.brushset" (some scenarioA)).1.getD
        []).length = 2 := by
  decide

/-- C4 (amended): on the scenario-A archive the output pack contains
exactly `ArtyPacks.app_base/base_1.png` with the bytes of `a.png` and
`ArtyPacks.app_base/base_2.png` with the bytes of `z.jpg` — the `.png`
name is used regardless of the source encoding, the bytes pass through
unchanged, and `cover/artwork.png` is excluded. -/
theorem C4_always_png :
    (process_brushset testDecode "base.brushset" (some scenarioA)).1
      = some outA := by
  decide

/-- C8: the pipeline is deterministic and re-encodes nothing: any two
successful runs on the same input agree entry for entry, the output bytes
are exactly the qualifying source entries' encoded bytes unchanged, and
the entry names are a pure function of the upload's file name and the
entry position. -/
theorem C8_deterministic_passthrough (decode : Decoder) (fp : String)
    (ar : Archive) (out : List OutEntry)
    (h : (process_brushset decode fp (some ar)).1 = some out) :
    out.map (fun e => e.data)
        = (qualifyingEntries decode ar).map (fun e => e.data)
    ∧ out.map (fun e => e.name)
        = (List.range (qualifyingEntries decode ar).length).map
            (fun i => mkEntryName (rootFolderName fp) (baseOf fp) (i + 1))
    ∧ ∀ out₂, (process_brushset decode fp (some ar)).1 = some out₂ →
        out₂ = out := by
  have hchar := process_brushset_some decode fp ar out h
  refine ⟨?_, ?_, ?_⟩
  · rw [hchar]
    exact packLoop_map_data _ _ _ _ _
  · rw [hchar, packLoop_names, packLoop_length]
    have hfun : (fun i => mkEntryName (rootFolderName fp) (baseOf fp) (0 + i + 1))
        = fun i => mkEntryName (rootFolderName fp) (baseOf fp) (i + 1) := by
      funext i
      congr 1
      omega
    rw [hfun]
    rfl
  · intro out₂ h₂
    rw [process_brushset_some decode fp ar out₂ h₂, hchar]

/-- Witness for C8: the characterization evaluated on scenario A. -/
theorem C8_deterministic_passthrough_witness :
    outA.map (fun e => e.data)
        = (qualifyingEntries testDecode scenarioA).map (fun e => e.data)
    ∧ outA.map (fun e => e.name)
        = (List.range (qualifyingEntries testDecode scenarioA).length).map
            (fun i => mkEntryName (rootFolderName "base.brushset")
              (baseOf "base.brushset") (i + 1))
    ∧ ∀ out₂,
        (process_brushset testDecode "base.brushset" (some scenarioA)).1
          = some out₂ → out₂ = outA :=
  C8_deterministic_passthrough testDecode "base.brushset" scenarioA outA
    (by decide)

/-- C9: every entry of a successful output pack lies under the single root
folder `ArtyPacks.app_<base>` (`<base>` = the upload's file name with its
extension stripped), so no entry sits at the archive root. -/
theorem C9_root_folder_nesting (decode : Decoder) (fp : String) (ar : Archive)
    (out : List OutEntry)
    (h : (process_brushset decode fp (some ar)).1 = some out) :
    ∀ e ∈ out,
      (∃ fname, e.name
        = ("ArtyPacks.app_" ++ splitextStem (basename fp)) ++ "/" ++ fname)
      ∧ '/' ∈ e.name.data := by
  intro e hmem
  have hchar := process_brushset_some decode fp ar out h
  have hname : e.name ∈ out.map (fun x => x.name) := List.mem_map_of_mem _ hmem
  rw [hchar, packLoop_names] at hname
  obtain ⟨i, _, hi⟩ := List.mem_map.mp hname
  constructor
  · exact ⟨imageFilenameInZip (baseOf fp) (0 + i + 1), hi.symm⟩
  · rw [← hi]
    simp only [mkEntryName, strData_append]
    simp

/-- Witness for C9: the first scenario-A output entry is nested under
`ArtyPacks.app_base/`. -/
theorem C9_root_folder_nesting_witness :
    (∃ fname, ("ArtyPacks.app_base/base_1.png" : String)
      = ("ArtyPacks.app_" ++ splitextStem (basename "base.brushset")) ++ "/"
          ++ fname)
    ∧ '/' ∈ ("ArtyPacks.app_base/base_1.png" : String).data :=
  C9_root_folder_nesting testDecode "base.brushset" scenarioA outA (by decide)
    ⟨"ArtyPacks.app_base/base_1.png", [2000, 2000]⟩ (by decide)

/-- C2 counterexample: for the archive whose only entry is the undersized
`small.png` (500x500), the `/convert` route answers 400, but the credit
was already consumed and the effect trace contains no compensating action
— contradicting "no license credit is charged or a credit refund is
attempted". -/
theorem C2_counterexample :
    convert_files testDecode (fun s => s) GateResult.granted true true reqB
      = ⟨400, [Effect.creditConsumed]⟩
    ∧ Effect.creditConsumed
        ∈ (convert_files testDecode (fun s => s) GateResult.granted true true
            reqB).effects := by
  decide

/-- C2 (amended): the `/convert` route consumes the license credit before
any input validation or archive processing; whenever it answers 400 (for a
missing file, wrong extension, corrupt archive, or zero qualifying
images), the only external side effect performed is the already-committed
credit decrement — no upload, no provenance insert, and no refund. -/
theorem C2_charge_precedes_validation (decode : Decoder)
    (secure : String → String) (gate : GateResult) (uploadOk logOk : Bool)
    (req : ConvertRequest)
    (h400 : (convert_files decode secure gate uploadOk logOk req).status
      = 400) :
    (convert_files decode secure gate uploadOk logOk req).effects
      = [Effect.creditConsumed] := by
  obtain ⟨lk, fl⟩ := req
  cases lk with
  | none => simp [convert_files] at h400
  | some k =>
    cases gate with
    | denied m => simp [convert_files] at h400
    | dbError => simp [convert_files] at h400
    | granted =>
      cases fl with
      | none => simp [convert_files]
      | some f =>
        by_cases h1 : f.filename = ""
        · simp [convert_files, h1]
        · by_cases h2 : strEndsWith f.filename ".brushset" = true
          · cases he : (process_brushset decode (secure f.filename)
                f.zipOpen).2 with
            | some msg => simp [convert_files, h1, h2, he]
            | none =>
              cases uploadOk <;> cases logOk <;>
                simp [convert_files, h1, h2, he] at h400
          · have h2f : strEndsWith f.filename ".brushset" = false := by
              simpa using h2
            simp [convert_files, h1, h2f]

/-- Witness for C2 (amended): the scenario-B request fails with 400 having
performed exactly the credit decrement. -/
theorem C2_charge_precedes_validation_witness :
    (convert_files testDecode (fun s => s) GateResult.granted true true
        reqB).effects = [Effect.creditConsumed] :=
  C2_charge_precedes_validation testDecode (fun s => s) GateResult.granted
    true true reqB (by decide)

/-- C3: when zero images qualify, `process_brushset` returns the
empty-result error and the `/convert` route answers 400 (not 500) having
performed no storage upload and no provenance insert. -/
theorem C3_empty_result_no_delivery (decode : Decoder)
    (secure : String → String) (gate : GateResult) (uploadOk logOk : Bool)
    (req : ConvertRequest) (f : UploadedFile) (ar : Archive) (key : String)
    (hkey : req.licenseKey = some key) (hg : gate = GateResult.granted)
    (hf : req.file = some f) (hne : ¬ f.filename = "")
    (hbs : strEndsWith f.filename ".brushset" = true)
    (hz : f.zipOpen = some ar)
    (hq : qualifyingEntries decode ar = []) :
    process_brushset decode (secure f.filename) f.zipOpen
      = (none, some emptyMsg)
    ∧ (convert_files decode secure gate uploadOk logOk req).status = 400
    ∧ Effect.storageUpload
        ∉ (convert_files decode secure gate uploadOk logOk req).effects
    ∧ Effect.logInsert
        ∉ (convert_files decode secure gate uploadOk logOk req).effects := by
  have hproc : process_brushset decode (secure f.filename) f.zipOpen
      = (none, some emptyMsg) := by
    rw [hz]
    exact process_brushset_empty decode (secure f.filename) ar hq
  have hresp : convert_files decode secure gate uploadOk logOk req
      = ⟨400, [Effect.creditConsumed]⟩ := by
    simp [convert_files, hkey, hg, hf, hne, hbs, hproc]
  rw [hresp]
  exact ⟨hproc, rfl, by decide, by decide⟩

/-- Witness for C3: the scenario-B request (only an undersized image) gets
400 with no delivery and no log insert. -/
theorem C3_empty_result_no_delivery_witness :
    process_brushset testDecode ((fun s => s) "pack.brushset")
      (some scenarioB : Option Archive) = (none, some emptyMsg)
    ∧ (convert_files testDecode (fun s => s) GateResult.granted true true
        reqB).status = 400
    ∧ Effect.storageUpload
        ∉ (convert_files testDecode (fun s => s) GateResult.granted true true
            reqB).effects
    ∧ Effect.logInsert
        ∉ (convert_files testDecode (fun s => s) GateResult.granted true true
            reqB).effects :=
  C3_empty_result_no_delivery testDecode (fun s => s) GateResult.granted
    true true reqB ⟨"pack.brushset", some scenarioB⟩ scenarioB "KEY"
    rfl rfl rfl (by decide) (by decide) rfl (by decide)

/-- The batch loop is the concatenation of the successfully fetched inner
zips' entries (failed URLs contribute nothing). -/
theorem buildMaster_eq_bind (us : List FetchResult) :
    buildMaster us = us.flatMap okEntries := by
  induction us with
  | nil => rfl
  | cons r rest ih => cases r <;> simp [buildMaster, okEntries, ih]

/-- C10: with a validated license and a nonempty URL list, `/download-all`
answers 200 with the batch archive, and the batch contains exactly the
entries of every successfully fetched inner zip — failed downloads and
corrupt inner zips are skipped without aborting the batch. -/
theorem C10_batch_skips_failures (key : String) (hk : ¬ key = "")
    (us : List FetchResult) (hus : us ≠ []) :
    download_all (some true) (some key) (some us)
      = ⟨200, some (buildMaster us)⟩
    ∧ buildMaster us = us.flatMap okEntries := by
  constructor
  · have hne : us.isEmpty = false := by
      cases us with
      | nil => exact absurd rfl hus
      | cons a l => rfl
    simp [download_all, hk, hne]
  · exact buildMaster_eq_bind us

/-- Witness for C10: a batch with one failed fetch and one corrupt inner
zip still returns 200 with the two good zips' entries. -/
theorem C10_batch_skips_failures_witness :
    download_all (some true) (some "KEY") (some urlsW)
      = ⟨200, some (buildMaster urlsW)⟩
    ∧ buildMaster urlsW = urlsW.flatMap okEntries :=
  C10_batch_skips_failures "KEY" (by decide) urlsW (by decide)

end ArtyPacks
